import Mathlib

/-!
Verification of the worker agent in `src/init.py` (vastai-sdxl-workflow).

The pure parts of the program (identity store, coordinator client payload
construction, the startup sequence, endpoint handlers) are embedded as Lean
functions.  The concurrent task-processing path (`process_task` guarded by
`pipeline_lock`) is embedded as a labelled small-step machine over system
states, with traces of observable events.
-/

namespace VastWorker

/-- Binary artifact contents (a byte string). -/
abbrev Bytes := List Nat

/-- Python `str.strip()` (restricted to ASCII whitespace): removes leading
and trailing whitespace characters. -/
def pyStrip (s : String) : String :=
  ⟨((s.data.dropWhile Char.isWhitespace).reverse.dropWhile Char.isWhitespace).reverse⟩

/-- The numeric value of a non-empty all-digit character sequence. -/
def digitsToNat (l : List Char) : Option Nat :=
  if l = [] then none
  else l.foldl (fun acc c =>
    match acc with
    | none => none
    | some n => if c.isDigit then some (n * 10 + (c.toNat - 48)) else none) (some 0)

/-- Python truthiness of a `str`: falsy iff empty. -/
def pyTruthyStr (s : String) : Bool := s ≠ ""

/-- Python truthiness of an `Optional[str]`: falsy iff `None` or empty. -/
def pyTruthyOptStr : Option String → Bool
  | none => false
  | some s => pyTruthyStr s

/-- Python `int(s)` on a string: strips surrounding whitespace, accepts an
optional sign followed by digits; returns `none` when the conversion raises
`ValueError` (e.g. on the empty string or non-numeric text). -/
def pyToInt (s : String) : Option Int :=
  match (pyStrip s).data with
  | [] => none
  | c :: rest =>
    if c = '-' then (digitsToNat rest).map (fun n => -(n : Int))
    else if c = '+' then (digitsToNat rest).map (fun n => (n : Int))
    else (digitsToNat (c :: rest)).map (fun n => (n : Int))

/-- The environment values read by `get_env_values`. -/
structure Env where
  publicIp : String
  port : String
  parentHost : String
deriving DecidableEq

/-- Result of a Python call: either it raises an exception carrying a message,
or it returns a value. -/
inductive PyResult (α : Type) where
  | raises (msg : String)
  | returns (v : α)
deriving DecidableEq

/-- `load_uuid`: the identity file's content (`none` when the file does not
exist); reading strips surrounding whitespace. -/
def load_uuid : Option String → Option String
  | some content => some (pyStrip content)
  | none => none

/-- `save_uuid`: overwrites the identity file with the given token. -/
def save_uuid (_fs : Option String) (u : String) : Option String := some u

/-- Outcome of `connect_to_parent`: the returned value (or a raised error),
the identity-file state afterwards, and whether the registration POST to
`/worker/connect` was actually issued. -/
structure ConnectOutcome where
  result : PyResult (Option String)
  fs : Option String
  posted : Bool
deriving DecidableEq

/-- `connect_to_parent`: refreshes env values (`parent_host` gets `http://`
prepended), guards on the three values being truthy, builds the payload with
`int(port)` (outside the `try`, so a parse failure raises), then POSTs.
`resp` models the HTTP exchange: `none` is a raised network/JSON error
(caught), `some d` is the decoded body's `d = data.get("uuid")`. -/
def connect_to_parent (env : Env) (resp : Option (Option String))
    (fs : Option String) : ConnectOutcome :=
  let parent_host := "http://" ++ env.parentHost
  if !(pyTruthyStr parent_host) || !(pyTruthyStr env.publicIp) || !(pyTruthyStr env.port) then
    ⟨.returns none, fs, false⟩
  else
    match pyToInt env.port with
    | none => ⟨.raises ("invalid literal for int() with base 10: " ++ env.port), fs, false⟩
    | some _ =>
      match resp with
      | none => ⟨.returns none, fs, true⟩
      | some received =>
        match received with
        | some u =>
          if pyTruthyStr u then ⟨.returns (some u), save_uuid fs u, true⟩
          else ⟨.returns none, fs, true⟩
        | none => ⟨.returns none, fs, true⟩

/-- Non-raising outcomes of one `send_healthcheck` call. -/
inductive HBResult where
  | skipped
  | sent
  | sendFailed (msg : String)
deriving DecidableEq

/-- `send_healthcheck`: returns early when the worker uuid or parent host is
falsy; refreshes env values; builds the payload with `int(port)` OUTSIDE the
`try` block (so a parse failure raises out of the function); the HTTP POST and
`raise_for_status` are inside the `try`, so their failures are caught. -/
def send_healthcheck (worker_uuid : Option String) (parent_host : String)
    (env : Env) (http : Except String Unit) : PyResult HBResult :=
  if !(pyTruthyOptStr worker_uuid) || !(pyTruthyStr parent_host) then .returns .skipped
  else
    match pyToInt env.port with
    | none => .raises ("invalid literal for int() with base 10: " ++ env.port)
    | some _ =>
      match http with
      | .ok _ => .returns .sent
      | .error e => .returns (.sendFailed e)

/-- `periodic_healthcheck`: each iteration sleeps then awaits
`send_healthcheck`; an exception raised by `send_healthcheck` propagates and
terminates the loop, so later iterations never run. -/
def periodic_healthcheck (worker_uuid : Option String) (parent_host : String) :
    List (Env × Except String Unit) → PyResult (List HBResult)
  | [] => .returns []
  | (env, http) :: rest =>
    match send_healthcheck worker_uuid parent_host env http with
    | .raises m => .raises m
    | .returns r =>
      match periodic_healthcheck worker_uuid parent_host rest with
      | .raises m => .raises m
      | .returns rs => .returns (r :: rs)

/-- The request body built by `send_task_status`: either a single JSON object
or a multipart form with binary parts `(name, filename, bytes, contentType)`. -/
inductive TaskStatusRequest where
  | json (uuid task_id status : String) (status_text : Option String)
  | multipart (uuid task_id status : String) (status_text : Option String)
      (parts : List (String × String × Bytes × String))
deriving DecidableEq

/-- One file entry of the multipart request, as built from `enumerate`:
`("image", ("generated_image_<i>.jpg", data, "image/jpeg"))`. -/
def imagePart (p : Nat × Bytes) : String × String × Bytes × String :=
  ("image", "generated_image_" ++ toString p.1 ++ ".jpg", p.2, "image/jpeg")

/-- `send_task_status`: returns without any outbound request when the worker
uuid or parent host is falsy; otherwise POSTs to `/worker/task` a multipart
form when `image_data_list` is truthy (non-`None` and non-empty), and a JSON
body otherwise.  `status_text` is included only when truthy. -/
def send_task_status (worker_uuid : Option String) (parent_host : String)
    (task_id status : String) (status_text : Option String)
    (image_data_list : Option (List Bytes)) : Option TaskStatusRequest :=
  if !(pyTruthyOptStr worker_uuid) || !(pyTruthyStr parent_host) then none
  else
    let uuid := worker_uuid.getD ""
    let txt := if pyTruthyOptStr status_text then status_text else none
    match image_data_list with
    | some l =>
      if l.isEmpty then some (.json uuid task_id status txt)
      else some (.multipart uuid task_id status txt (l.enum.map imagePart))
    | none => some (.json uuid task_id status txt)

/-- The synchronous response of `create_task`. -/
structure TaskResponse where
  status : String
  task_id : String
deriving DecidableEq

/-- `create_task`: generates a fresh id via `uuid4` (modelled as the supplied
`freshId`), schedules background processing, and returns
`{"status": "STARTED", "task_id": task_id}` without consulting the payload. -/
def create_task (_task_data : List (String × String)) (freshId : String) : TaskResponse :=
  ⟨"STARTED", freshId⟩

/-- `health_check`: returns `{"status": "healthy", "uuid": worker_uuid}`. -/
def health_check (worker_uuid : Option String) : String × Option String :=
  ("healthy", worker_uuid)

/-- Observable outcome of the `lifespan` startup sequence. -/
structure StartupResult where
  worker_uuid : Option String
  connectCalled : Bool
  registrationPosted : Bool
  heartbeatStarted : Bool
  raised : Bool
deriving DecidableEq

/-- `lifespan` startup: loads the uuid from the identity file; when it is
falsy, calls `connect_to_parent` (whose raised errors propagate); the
heartbeat loop is started only when an identity was obtained. -/
def lifespan (fs : Option String) (env : Env) (resp : Option (Option String)) :
    StartupResult :=
  let wu0 := load_uuid fs
  if pyTruthyOptStr wu0 then ⟨wu0, false, false, true, false⟩
  else
    let c := connect_to_parent env resp fs
    match c.result with
    | .raises _ => ⟨none, true, c.posted, false, true⟩
    | .returns u => ⟨u, true, c.posted, pyTruthyOptStr u, false⟩

/-! ## A small-step machine for the task-processing path

`process_task` is an async coroutine: it reports `PROCESSING`, acquires
`pipeline_lock`, runs the external computation in a thread, releases the lock
on every exit path (the `async with` block), and reports `DONE` on success or
`ERROR` (catching the exception) on failure.  Several such coroutines may be
interleaved by the event loop; each `await` is a suspension point.  The
machine below has one program counter per submitted task, a lock owner, and a
trace of observable events. -/

/-- Task statuses of the protocol. -/
inductive Status where
  | STARTED
  | PROCESSING
  | DONE
  | ERROR
deriving DecidableEq

/-- Result of the external computation for a task: the generated artifacts,
or a raised exception with message `msg`. -/
inductive Outcome where
  | success (artifacts : List Bytes)
  | failure (msg : String)
deriving DecidableEq

/-- Program counter of one `process_task` coroutine, naming the next step. -/
inductive PC where
  | sendProcessing
  | acquireGate
  | beginCompute
  | computing
  | releaseGate
  | reportTerminal
  | finished
deriving DecidableEq

/-- Per-task machine state: where the coroutine is, and the (predetermined)
result of its external computation. -/
structure TaskState where
  pc : PC
  outcome : Outcome
deriving DecidableEq

/-- The globals consulted by `send_task_status`. -/
structure Config where
  worker_uuid : Option String
  parent_host : String
deriving DecidableEq

/-- Whether `send_task_status` actually issues an outbound request. -/
def sendEnabled (cfg : Config) : Bool :=
  pyTruthyOptStr cfg.worker_uuid && pyTruthyStr cfg.parent_host

/-- Observable events of the machine.  `statusReport` is an outbound POST to
`/worker/task`; `reportSkipped` is `send_task_status` returning early;
`started` is the synchronous `STARTED` response of `create_task`. -/
inductive Event where
  | started (t : Nat)
  | statusReport (t : Nat) (st : Status) (text : Option String) (artifacts : List Bytes)
  | reportSkipped (t : Nat)
  | acquired (t : Nat)
  | computeBegan (t : Nat)
  | computeEnded (t : Nat) (oc : Outcome)
  | released (t : Nat)
deriving DecidableEq

/-- The task an event belongs to. -/
def eventTask : Event → Nat
  | .started t => t
  | .statusReport t _ _ _ => t
  | .reportSkipped t => t
  | .acquired t => t
  | .computeBegan t => t
  | .computeEnded t _ => t
  | .released t => t

/-- System state: the submitted tasks and the holder of `pipeline_lock`. -/
structure SysState where
  tasks : Nat → Option TaskState
  lockOwner : Option Nat

/-- Initial state: no tasks, lock free. -/
def initState : SysState := ⟨fun _ => none, none⟩

/-- Update one task's state. -/
def setTask (s : SysState) (t : Nat) (ts : TaskState) : SysState :=
  ⟨fun u => if u = t then some ts else s.tasks u, s.lockOwner⟩

/-- The status-text sent with `PROCESSING`. -/
def processingText : String := "Worker is processing the request..."

/-- The status-text sent with `DONE`. -/
def doneText : String := "Image generated successfully!"

/-- The status-text sent with `ERROR`: `f"Task processing failed: {str(e)}"`. -/
def errorText (msg : String) : String := "Task processing failed: " ++ msg

/-- The event emitted by a `send_task_status` call: a real report when the
globals are truthy, otherwise an early return. -/
def reportEvent (cfg : Config) (t : Nat) (st : Status) (text : Option String)
    (arts : List Bytes) : Event :=
  if sendEnabled cfg then .statusReport t st text arts else .reportSkipped t

/-- The `PROCESSING` report of `process_task`. -/
def procEvent (cfg : Config) (t : Nat) : Event :=
  reportEvent cfg t .PROCESSING (some processingText) []

/-- The terminal report of `process_task`: `DONE` with the artifacts on
success, `ERROR` with `errorText` on failure. -/
def terminalEvent (cfg : Config) (t : Nat) : Outcome → Event
  | .success arts => reportEvent cfg t .DONE (some doneText) arts
  | .failure msg => reportEvent cfg t .ERROR (some (errorText msg)) []

/-- One interleaving step.  `submit` is `create_task` accepting a fresh id and
scheduling `process_task`; the remaining steps advance one coroutine between
its suspension points, with `acquire` enabled only when the lock is free, and
`release` clearing the lock before the terminal report is sent. -/
inductive Step (cfg : Config) : SysState → Event → SysState → Prop where
  | submit (s : SysState) (t : Nat) (oc : Outcome)
      (h : s.tasks t = none) :
      Step cfg s (.started t) (setTask s t ⟨.sendProcessing, oc⟩)
  | sendProc (s : SysState) (t : Nat) (oc : Outcome)
      (h : s.tasks t = some ⟨.sendProcessing, oc⟩) :
      Step cfg s (procEvent cfg t) (setTask s t ⟨.acquireGate, oc⟩)
  | acquire (s : SysState) (t : Nat) (oc : Outcome)
      (h : s.tasks t = some ⟨.acquireGate, oc⟩) (hfree : s.lockOwner = none) :
      Step cfg s (.acquired t) ⟨(setTask s t ⟨.beginCompute, oc⟩).tasks, some t⟩
  | compBegin (s : SysState) (t : Nat) (oc : Outcome)
      (h : s.tasks t = some ⟨.beginCompute, oc⟩) :
      Step cfg s (.computeBegan t) (setTask s t ⟨.computing, oc⟩)
  | compEnd (s : SysState) (t : Nat) (oc : Outcome)
      (h : s.tasks t = some ⟨.computing, oc⟩) :
      Step cfg s (.computeEnded t oc) (setTask s t ⟨.releaseGate, oc⟩)
  | release (s : SysState) (t : Nat) (oc : Outcome)
      (h : s.tasks t = some ⟨.releaseGate, oc⟩) :
      Step cfg s (.released t) ⟨(setTask s t ⟨.reportTerminal, oc⟩).tasks, none⟩
  | reportTerm (s : SysState) (t : Nat) (oc : Outcome)
      (h : s.tasks t = some ⟨.reportTerminal, oc⟩) :
      Step cfg s (terminalEvent cfg t oc) (setTask s t ⟨.finished, oc⟩)

/-- Reachability from the initial state, accumulating the event trace. -/
inductive Reach (cfg : Config) : SysState → List Event → Prop where
  | start : Reach cfg initState []
  | next {s : SysState} {tr : List Event} {e : Event} {s2 : SysState} :
      Reach cfg s tr → Step cfg s e s2 → Reach cfg s2 (tr ++ [e])

/-- The events of the trace belonging to task `t`. -/
def perTask (t : Nat) (tr : List Event) : List Event :=
  tr.filter (fun e => eventTask e == t)

/-- Whether a task currently holds the Execution Gate (is between
gate-acquire and gate-release). -/
def inGate (ts : TaskState) : Bool :=
  ts.pc == .beginCompute || ts.pc == .computing || ts.pc == .releaseGate

/-- The exact event history of a task that has reached a given program
counter. -/
def taskHist (cfg : Config) (t : Nat) (oc : Outcome) : PC → List Event
  | .sendProcessing => [.started t]
  | .acquireGate => [.started t, procEvent cfg t]
  | .beginCompute => [.started t, procEvent cfg t, .acquired t]
  | .computing => [.started t, procEvent cfg t, .acquired t, .computeBegan t]
  | .releaseGate =>
      [.started t, procEvent cfg t, .acquired t, .computeBegan t, .computeEnded t oc]
  | .reportTerminal =>
      [.started t, procEvent cfg t, .acquired t, .computeBegan t, .computeEnded t oc,
        .released t]
  | .finished =>
      [.started t, procEvent cfg t, .acquired t, .computeBegan t, .computeEnded t oc,
        .released t, terminalEvent cfg t oc]

/-- The events a task has contributed so far, as determined by its state. -/
def taskTrace (cfg : Config) (t : Nat) : Option TaskState → List Event
  | none => []
  | some ts => taskHist cfg t ts.outcome ts.pc

/-- Trace invariant: each task's filtered trace is exactly its history. -/
def TraceInv (cfg : Config) (s : SysState) (tr : List Event) : Prop :=
  ∀ t, perTask t tr = taskTrace cfg t (s.tasks t)

/-- Lock invariant: the lock owner is exactly the task inside the gate. -/
def LockInv (s : SysState) : Prop :=
  ∀ t, s.lockOwner = some t ↔ ∃ ts, s.tasks t = some ts ∧ inGate ts = true

lemma setTask_self (s : SysState) (t : Nat) (ts : TaskState) :
    (setTask s t ts).tasks t = some ts := by
  simp [setTask]

lemma setTask_other (s : SysState) (t u : Nat) (ts : TaskState) (h : u ≠ t) :
    (setTask s t ts).tasks u = s.tasks u := by
  simp [setTask, h]

lemma eventTask_reportEvent (cfg : Config) (t : Nat) (st : Status)
    (txt : Option String) (arts : List Bytes) :
    eventTask (reportEvent cfg t st txt arts) = t := by
  unfold reportEvent
  split <;> rfl

lemma eventTask_procEvent (cfg : Config) (t : Nat) :
    eventTask (procEvent cfg t) = t :=
  eventTask_reportEvent cfg t .PROCESSING (some processingText) []

lemma eventTask_terminalEvent (cfg : Config) (t : Nat) (oc : Outcome) :
    eventTask (terminalEvent cfg t oc) = t := by
  cases oc <;> simp [terminalEvent, eventTask_reportEvent]

lemma perTask_append (t : Nat) (tr1 tr2 : List Event) :
    perTask t (tr1 ++ tr2) = perTask t tr1 ++ perTask t tr2 := by
  simp [perTask]

lemma perTask_one_self (t : Nat) (e : Event) (h : eventTask e = t) :
    perTask t [e] = [e] := by
  simp [perTask, h]

lemma perTask_one_other (t : Nat) (e : Event) (h : eventTask e ≠ t) :
    perTask t [e] = [] := by
  simp [perTask, h]

lemma traceInv_update {cfg : Config} {s : SysState} {tr : List Event} {s2 : SysState}
    (t : Nat) (e : Event) (ts2 : TaskState)
    (hT : TraceInv cfg s tr) (he : eventTask e = t)
    (htasks : s2.tasks = (setTask s t ts2).tasks)
    (hist : taskTrace cfg t (s.tasks t) ++ [e] = taskHist cfg t ts2.outcome ts2.pc) :
    TraceInv cfg s2 (tr ++ [e]) := by
  intro u
  rw [perTask_append, htasks]
  by_cases hu : u = t
  · subst hu
    rw [perTask_one_self u e he, hT u, setTask_self]
    simpa [taskTrace] using hist
  · rw [perTask_one_other u e (by rw [he]; exact fun hc => hu hc.symm),
      List.append_nil, setTask_other _ _ _ _ hu]
    exact hT u

lemma lockInv_nonGate {s : SysState} (hL : LockInv s) (t : Nat) (ts2 : TaskState)
    (hold : ∀ ts, s.tasks t = some ts → inGate ts = false)
    (hnew : inGate ts2 = false) :
    LockInv ⟨(setTask s t ts2).tasks, s.lockOwner⟩ := by
  intro u
  constructor
  · intro hlo
    obtain ⟨ts, hts, hg⟩ := (hL u).mp hlo
    by_cases hu : u = t
    · subst hu
      simp [hold ts hts] at hg
    · exact ⟨ts, by rw [setTask_other _ _ _ _ hu]; exact hts, hg⟩
  · rintro ⟨ts, hts, hg⟩
    by_cases hu : u = t
    · subst hu
      rw [setTask_self] at hts
      cases hts
      simp [hnew] at hg
    · rw [setTask_other _ _ _ _ hu] at hts
      exact (hL u).mpr ⟨ts, hts, hg⟩

lemma lockInv_stayGate {s : SysState} (hL : LockInv s) (t : Nat) (ts1 ts2 : TaskState)
    (hts1 : s.tasks t = some ts1) (hg1 : inGate ts1 = true) (hg2 : inGate ts2 = true) :
    LockInv ⟨(setTask s t ts2).tasks, s.lockOwner⟩ := by
  intro u
  constructor
  · intro hlo
    obtain ⟨ts, hts, hg⟩ := (hL u).mp hlo
    by_cases hu : u = t
    · subst hu
      exact ⟨ts2, by rw [setTask_self], hg2⟩
    · exact ⟨ts, by rw [setTask_other _ _ _ _ hu]; exact hts, hg⟩
  · rintro ⟨ts, hts, hg⟩
    by_cases hu : u = t
    · subst hu
      exact (hL u).mpr ⟨ts1, hts1, hg1⟩
    · rw [setTask_other _ _ _ _ hu] at hts
      exact (hL u).mpr ⟨ts, hts, hg⟩

lemma step_inv {cfg : Config} {s : SysState} {e : Event} {s2 : SysState}
    (hstep : Step cfg s e s2) {tr : List Event}
    (hT : TraceInv cfg s tr) (hL : LockInv s) :
    TraceInv cfg s2 (tr ++ [e]) ∧ LockInv s2 := by
  cases hstep with
  | submit t oc h =>
    refine ⟨traceInv_update t _ ⟨.sendProcessing, oc⟩ hT rfl rfl ?_, ?_⟩
    · rw [h]; simp [taskTrace, taskHist]
    · exact lockInv_nonGate hL t _ (fun ts hts => by rw [h] at hts; cases hts) rfl
  | sendProc t oc h =>
    refine ⟨traceInv_update t _ ⟨.acquireGate, oc⟩ hT (eventTask_procEvent cfg t) rfl ?_, ?_⟩
    · rw [h]; simp [taskTrace, taskHist]
    · exact lockInv_nonGate hL t _
        (fun ts hts => by rw [h] at hts; cases hts; rfl) rfl
  | acquire t oc h hfree =>
    refine ⟨traceInv_update t _ ⟨.beginCompute, oc⟩ hT rfl rfl ?_, ?_⟩
    · rw [h]; simp [taskTrace, taskHist]
    · intro u
      constructor
      · intro hlo
        have ht : t = u := by
          have := hlo
          injection this
        subst ht
        exact ⟨⟨.beginCompute, oc⟩, setTask_self _ _ _, rfl⟩
      · rintro ⟨ts, hts, hg⟩
        by_cases hu : u = t
        · subst hu; rfl
        · rw [setTask_other _ _ _ _ hu] at hts
          have h2 := (hL u).mpr ⟨ts, hts, hg⟩
          rw [hfree] at h2
          exact Option.noConfusion h2
  | compBegin t oc h =>
    refine ⟨traceInv_update t _ ⟨.computing, oc⟩ hT rfl rfl ?_, ?_⟩
    · rw [h]; simp [taskTrace, taskHist]
    · exact lockInv_stayGate hL t ⟨.beginCompute, oc⟩ _ h rfl rfl
  | compEnd t oc h =>
    refine ⟨traceInv_update t _ ⟨.releaseGate, oc⟩ hT rfl rfl ?_, ?_⟩
    · rw [h]; simp [taskTrace, taskHist]
    · exact lockInv_stayGate hL t ⟨.computing, oc⟩ _ h rfl rfl
  | release t oc h =>
    have howner : s.lockOwner = some t := (hL t).mpr ⟨⟨.releaseGate, oc⟩, h, rfl⟩
    refine ⟨traceInv_update t _ ⟨.reportTerminal, oc⟩ hT rfl rfl ?_, ?_⟩
    · rw [h]; simp [taskTrace, taskHist]
    · intro u
      constructor
      · intro hlo
        exact Option.noConfusion hlo
      · rintro ⟨ts, hts, hg⟩
        by_cases hu : u = t
        · subst hu
          rw [setTask_self] at hts
          cases hts
          simp [inGate] at hg
        · rw [setTask_other _ _ _ _ hu] at hts
          have h2 := (hL u).mpr ⟨ts, hts, hg⟩
          rw [howner] at h2
          injection h2 with h3
          exact absurd h3.symm hu
  | reportTerm t oc h =>
    refine ⟨traceInv_update t _ ⟨.finished, oc⟩ hT (eventTask_terminalEvent cfg t oc) rfl ?_, ?_⟩
    · rw [h]; simp [taskTrace, taskHist]
    · exact lockInv_nonGate hL t _
        (fun ts hts => by rw [h] at hts; cases hts; rfl) rfl

/-- Every reachable state satisfies both invariants. -/
theorem reach_inv {cfg : Config} {s : SysState} {tr : List Event}
    (h : Reach cfg s tr) : TraceInv cfg s tr ∧ LockInv s := by
  induction h with
  | start =>
    refine ⟨fun t => rfl, fun t => ⟨fun hlo => Option.noConfusion hlo, ?_⟩⟩
    rintro ⟨ts, hts, _⟩
    exact Option.noConfusion hts
  | next hr hs ih =>
    exact step_inv hs ih.1 ih.2

lemma perTask_cons (t : Nat) (e : Event) (tr : List Event) :
    perTask t (e :: tr) =
      if eventTask e == t then e :: perTask t tr else perTask t tr := by
  simp [perTask, List.filter_cons]

/-- Splitting a list at an occurrence of `y` is unambiguous when `y` occurs
nowhere else. -/
lemma append_cons_eq {α : Type} (y : α) :
    ∀ (a c b d : List α), a ++ y :: b = c ++ y :: d → y ∉ c → y ∉ d →
      a = c ∧ b = d := by
  intro a
  induction a with
  | nil =>
    intro c b d h hc hd
    cases c with
    | nil =>
      refine ⟨rfl, ?_⟩
      rw [List.nil_append, List.nil_append] at h
      injection h
    | cons w c2 =>
      rw [List.nil_append, List.cons_append] at h
      injection h with h1 h2
      exact absurd (h1 ▸ List.mem_cons_self w c2) hc
  | cons z a2 ih =>
    intro c b d h hc hd
    cases c with
    | nil =>
      rw [List.cons_append, List.nil_append] at h
      injection h with h1 h2
      exact absurd (h2 ▸ List.mem_append_right a2 (List.mem_cons_self y b)) hd
    | cons w c2 =>
      rw [List.cons_append, List.cons_append] at h
      injection h with h1 h2
      obtain ⟨he, hb⟩ := ih c2 b d h2 (fun hm => hc (List.mem_cons_of_mem w hm)) hd
      exact ⟨by rw [h1, he], hb⟩

/-- The status carried by an event, if any:  the synchronous `STARTED`
response or the status of an outbound report. -/
def statusOf : Event → Option Status
  | .started _ => some .STARTED
  | .statusReport _ st _ _ => some st
  | _ => none

/-- The sequence of statuses emitted for task `t` along a trace. -/
def statusesOf (t : Nat) (tr : List Event) : List Status :=
  (perTask t tr).filterMap statusOf

/-- C1: for every sequence of task submissions and every interleaving, at
most one task is between gate-acquire and gate-release of `pipeline_lock` at
any reachable state; in particular the external computation (whose steps
require being inside the gate) of one task never runs while another task
holds the gate, so computations are serialized.  -/
theorem gate_mutual_exclusion {cfg : Config} {s : SysState} {tr : List Event}
    (h : Reach cfg s tr) (t u : Nat) (ts1 ts2 : TaskState)
    (h1 : s.tasks t = some ts1) (hg1 : inGate ts1 = true)
    (h2 : s.tasks u = some ts2) (hg2 : inGate ts2 = true) : t = u := by
  have hL := (reach_inv h).2
  have hlt := (hL t).mpr ⟨ts1, h1, hg1⟩
  have hlu := (hL u).mpr ⟨ts2, h2, hg2⟩
  rw [hlt] at hlu
  injection hlu

/-- C1 witness: a reachable state in which task 0 is inside the gate. -/
theorem gate_mutual_exclusion_witness : (0 : Nat) = 0 := by
  have hstep1 : Step ⟨some "worker-1", "http://parent"⟩ initState (.started 0)
      (setTask initState 0 ⟨.sendProcessing, .failure "GPU out of memory"⟩) :=
    Step.submit initState 0 (.failure "GPU out of memory") rfl
  have hstep2 : Step ⟨some "worker-1", "http://parent"⟩
      (setTask initState 0 ⟨.sendProcessing, .failure "GPU out of memory"⟩)
      (procEvent ⟨some "worker-1", "http://parent"⟩ 0)
      (setTask (setTask initState 0 ⟨.sendProcessing, .failure "GPU out of memory"⟩) 0
        ⟨.acquireGate, .failure "GPU out of memory"⟩) :=
    Step.sendProc _ 0 (.failure "GPU out of memory") rfl
  have hstep3 : Step ⟨some "worker-1", "http://parent"⟩
      (setTask (setTask initState 0 ⟨.sendProcessing, .failure "GPU out of memory"⟩) 0
        ⟨.acquireGate, .failure "GPU out of memory"⟩)
      (.acquired 0)
      ⟨(setTask (setTask (setTask initState 0 ⟨.sendProcessing, .failure "GPU out of memory"⟩) 0
          ⟨.acquireGate, .failure "GPU out of memory"⟩) 0
          ⟨.beginCompute, .failure "GPU out of memory"⟩).tasks, some 0⟩ :=
    Step.acquire _ 0 (.failure "GPU out of memory") rfl rfl
  exact gate_mutual_exclusion
    (Reach.next (Reach.next (Reach.next Reach.start hstep1) hstep2) hstep3)
    0 0 ⟨.beginCompute, .failure "GPU out of memory"⟩
    ⟨.beginCompute, .failure "GPU out of memory"⟩ rfl rfl rfl rfl

/-- C2: for every task id, the statuses emitted for it (the synchronous
`STARTED` response and the pushed reports) form a prefix of
`STARTED, PROCESSING, DONE` or of `STARTED, PROCESSING, ERROR` — no repeats,
no regressions, at most one terminal status; moreover, whenever the worker
has an identity, the `PROCESSING` report precedes the start of the external
computation in the trace. -/
theorem task_status_monotonic {cfg : Config} {s : SysState} {tr : List Event}
    (h : Reach cfg s tr) (t : Nat) :
    ((∃ rest, statusesOf t tr ++ rest = [Status.STARTED, .PROCESSING, .DONE]) ∨
     (∃ rest, statusesOf t tr ++ rest = [Status.STARTED, .PROCESSING, .ERROR])) ∧
    (∀ tr1 tr2, tr = tr1 ++ Event.computeBegan t :: tr2 →
      sendEnabled cfg = true →
      Event.statusReport t .PROCESSING (some processingText) [] ∈ tr1) := by
  have hT := (reach_inv h).1
  constructor
  · have hstat : statusesOf t tr = [] ∨ statusesOf t tr = [.STARTED] ∨
        statusesOf t tr = [.STARTED, .PROCESSING] ∨
        statusesOf t tr = [.STARTED, .PROCESSING, .DONE] ∨
        statusesOf t tr = [.STARTED, .PROCESSING, .ERROR] := by
      unfold statusesOf
      rw [hT t]
      cases hs : s.tasks t with
      | none => exact Or.inl (by simp [taskTrace])
      | some ts =>
        obtain ⟨pc, oc⟩ := ts
        cases hEn : sendEnabled cfg <;> cases pc <;> cases oc <;>
          simp [taskTrace, taskHist, statusOf, procEvent, terminalEvent, reportEvent, hEn]
    rcases hstat with h5 | h5 | h5 | h5 | h5 <;> rw [h5]
    · exact Or.inl ⟨[.STARTED, .PROCESSING, .DONE], rfl⟩
    · exact Or.inl ⟨[.PROCESSING, .DONE], rfl⟩
    · exact Or.inl ⟨[.DONE], rfl⟩
    · exact Or.inl ⟨[], rfl⟩
    · exact Or.inr ⟨[], rfl⟩
  · intro tr1 tr2 hsplit hEn
    have hcons : perTask t tr = perTask t tr1 ++ Event.computeBegan t :: perTask t tr2 := by
      rw [hsplit, perTask_append, perTask_cons]
      simp [eventTask]
    have hmem : Event.computeBegan t ∈ taskTrace cfg t (s.tasks t) := by
      rw [← hT t, hcons]
      exact List.mem_append_right _ (List.mem_cons_self _ _)
    cases hs : s.tasks t with
    | none =>
      rw [hs] at hmem
      simp [taskTrace] at hmem
    | some ts =>
      obtain ⟨pc, oc⟩ := ts
      rw [hs] at hmem
      have heq : perTask t tr1 ++ Event.computeBegan t :: perTask t tr2 =
          taskHist cfg t oc pc := by
        rw [← hcons, hT t, hs]
        rfl
      have hfirst : perTask t tr1 = [.started t, procEvent cfg t, .acquired t] := by
        cases pc
        case sendProcessing => simp [taskTrace, taskHist] at hmem
        case acquireGate => simp [taskTrace, taskHist, procEvent, reportEvent, hEn] at hmem
        case beginCompute => simp [taskTrace, taskHist, procEvent, reportEvent, hEn] at hmem
        case computing =>
          exact (append_cons_eq (Event.computeBegan t) (perTask t tr1)
            [.started t, procEvent cfg t, .acquired t] (perTask t tr2) []
            (by simpa [taskHist] using heq)
            (by simp [procEvent, reportEvent, hEn]) (by simp)).1
        case releaseGate =>
          exact (append_cons_eq (Event.computeBegan t) (perTask t tr1)
            [.started t, procEvent cfg t, .acquired t] (perTask t tr2)
            [.computeEnded t oc]
            (by simpa [taskHist] using heq)
            (by simp [procEvent, reportEvent, hEn]) (by simp)).1
        case reportTerminal =>
          exact (append_cons_eq (Event.computeBegan t) (perTask t tr1)
            [.started t, procEvent cfg t, .acquired t] (perTask t tr2)
            [.computeEnded t oc, .released t]
            (by simpa [taskHist] using heq)
            (by simp [procEvent, reportEvent, hEn]) (by simp)).1
        case finished =>
          exact (append_cons_eq (Event.computeBegan t) (perTask t tr1)
            [.started t, procEvent cfg t, .acquired t] (perTask t tr2)
            [.computeEnded t oc, .released t, terminalEvent cfg t oc]
            (by simpa [taskHist] using heq)
            (by simp [procEvent, reportEvent, hEn])
            (by cases oc <;> simp [terminalEvent, reportEvent, hEn])).1
      have hmemp : procEvent cfg t ∈ perTask t tr1 := by
        rw [hfirst]
        simp
      have hmem1 : procEvent cfg t ∈ tr1 := List.mem_of_mem_filter hmemp
      simpa [procEvent, reportEvent, hEn] using hmem1

/-- C2 witness: a one-step run issuing the synchronous `STARTED` response. -/
theorem task_status_monotonic_witness :
    (∃ rest, statusesOf 0 [Event.started 0] ++ rest =
      [Status.STARTED, .PROCESSING, .DONE]) ∨
    (∃ rest, statusesOf 0 [Event.started 0] ++ rest =
      [Status.STARTED, .PROCESSING, .ERROR]) :=
  (task_status_monotonic
    (show Reach ⟨some "worker-1", "http://parent"⟩
        (setTask initState 0 ⟨.sendProcessing, .success []⟩) [Event.started 0] from
      Reach.next Reach.start (Step.submit initState 0 (.success []) rfl)) 0).1

/-- C3: whenever a terminal report (`DONE` or `ERROR`) for task `t` appears
in a reachable trace, the gate-release of `t` precedes it; and the report's
content is determined by the computation's outcome: a raised failure yields
`ERROR` with a status text containing the failure's message, a success yields
`DONE` carrying exactly the produced artifacts. -/
theorem gate_released_before_terminal_report {cfg : Config} {s : SysState}
    {tr : List Event} (h : Reach cfg s tr) (t : Nat) (tr1 tr2 : List Event)
    (st : Status) (txt : Option String) (arts : List Bytes)
    (hsplit : tr = tr1 ++ Event.statusReport t st txt arts :: tr2)
    (hterm : st = .DONE ∨ st = .ERROR) :
    Event.released t ∈ tr1 ∧
    (∀ oc, Event.computeEnded t oc ∈ tr →
      (∀ msg, oc = .failure msg →
        st = .ERROR ∧ txt = some (errorText msg) ∧
        ∃ pre suf, txt = some (pre ++ msg ++ suf)) ∧
      (∀ a, oc = .success a → st = .DONE ∧ arts = a ∧ txt = some doneText)) := by
  have hT := (reach_inv h).1
  have hne : st ≠ Status.PROCESSING := by
    rcases hterm with h2 | h2 <;> (rw [h2]; intro hx; cases hx)
  have hcons : perTask t tr =
      perTask t tr1 ++ Event.statusReport t st txt arts :: perTask t tr2 := by
    rw [hsplit, perTask_append, perTask_cons]
    simp [eventTask]
  have hmem : Event.statusReport t st txt arts ∈ taskTrace cfg t (s.tasks t) := by
    rw [← hT t, hcons]
    exact List.mem_append_right _ (List.mem_cons_self _ _)
  cases hs : s.tasks t with
  | none =>
    rw [hs] at hmem
    simp [taskTrace] at hmem
  | some ts =>
    obtain ⟨pc, oc0⟩ := ts
    rw [hs] at hmem
    have heq : perTask t tr1 ++ Event.statusReport t st txt arts :: perTask t tr2 =
        taskHist cfg t oc0 pc := by
      rw [← hcons, hT t, hs]
      rfl
    cases hEn : sendEnabled cfg
    · cases pc <;> cases oc0 <;>
        simp [taskTrace, taskHist, procEvent, terminalEvent, reportEvent, hEn] at hmem
    · cases pc
      case sendProcessing => simp [taskTrace, taskHist] at hmem
      case acquireGate =>
        simp [taskTrace, taskHist, procEvent, reportEvent, hEn, hne] at hmem
      case beginCompute =>
        simp [taskTrace, taskHist, procEvent, reportEvent, hEn, hne] at hmem
      case computing =>
        simp [taskTrace, taskHist, procEvent, reportEvent, hEn, hne] at hmem
      case releaseGate =>
        simp [taskTrace, taskHist, procEvent, reportEvent, hEn, hne] at hmem
      case reportTerminal =>
        simp [taskTrace, taskHist, procEvent, reportEvent, hEn, hne] at hmem
      case finished =>
        cases oc0 with
        | success a0 =>
          simp [taskTrace, taskHist, procEvent, terminalEvent, reportEvent, hEn, hne] at hmem
          obtain ⟨hst, htx, har⟩ := hmem
          subst hst
          subst htx
          subst har
          have hsp := append_cons_eq (Event.statusReport t .DONE (some doneText) arts)
            (perTask t tr1)
            [.started t, procEvent cfg t, .acquired t, .computeBegan t,
             .computeEnded t (.success arts), .released t]
            (perTask t tr2) []
            (by simpa [taskHist, terminalEvent, reportEvent, hEn] using heq)
            (by simp [procEvent, reportEvent, hEn]) (by simp)
          refine ⟨?_, ?_⟩
          · have hr : Event.released t ∈ perTask t tr1 := by
              rw [hsp.1]
              simp
            exact List.mem_of_mem_filter hr
          · intro oc hoc
            have hoc2 : Event.computeEnded t oc ∈ perTask t tr :=
              List.mem_filter.mpr ⟨hoc, by simp [eventTask]⟩
            rw [hT t, hs] at hoc2
            simp [taskTrace, taskHist, procEvent, terminalEvent, reportEvent, hEn] at hoc2
            subst hoc2
            refine ⟨?_, ?_⟩
            · intro msg hmsg
              cases hmsg
            · intro a ha
              injection ha with ha2
              subst ha2
              exact ⟨rfl, rfl, rfl⟩
        | failure msg0 =>
          simp [taskTrace, taskHist, procEvent, terminalEvent, reportEvent, hEn, hne] at hmem
          obtain ⟨hst, htx, har⟩ := hmem
          subst hst
          subst htx
          subst har
          have hsp := append_cons_eq
            (Event.statusReport t .ERROR (some (errorText msg0)) [])
            (perTask t tr1)
            [.started t, procEvent cfg t, .acquired t, .computeBegan t,
             .computeEnded t (.failure msg0), .released t]
            (perTask t tr2) []
            (by simpa [taskHist, terminalEvent, reportEvent, hEn] using heq)
            (by simp [procEvent, reportEvent, hEn]) (by simp)
          refine ⟨?_, ?_⟩
          · have hr : Event.released t ∈ perTask t tr1 := by
              rw [hsp.1]
              simp
            exact List.mem_of_mem_filter hr
          · intro oc hoc
            have hoc2 : Event.computeEnded t oc ∈ perTask t tr :=
              List.mem_filter.mpr ⟨hoc, by simp [eventTask]⟩
            rw [hT t, hs] at hoc2
            simp [taskTrace, taskHist, procEvent, terminalEvent, reportEvent, hEn] at hoc2
            subst hoc2
            refine ⟨?_, ?_⟩
            · intro msg hmsg
              injection hmsg with hm2
              subst hm2
              refine ⟨rfl, rfl, "Task processing failed: ", "", ?_⟩
              simp [errorText]
            · intro a ha
              cases ha

/-- A demonstration configuration with an established identity. -/
def demoCfg : Config := ⟨some "worker-1", "http://parent"⟩

/-- A computation outcome raising "GPU out of memory". -/
def demoOc : Outcome := .failure "GPU out of memory"

def dS1 : SysState := setTask initState 0 ⟨.sendProcessing, demoOc⟩

def dS2 : SysState := setTask dS1 0 ⟨.acquireGate, demoOc⟩

def dS3 : SysState := ⟨(setTask dS2 0 ⟨.beginCompute, demoOc⟩).tasks, some 0⟩

def dS4 : SysState := setTask dS3 0 ⟨.computing, demoOc⟩

def dS5 : SysState := setTask dS4 0 ⟨.releaseGate, demoOc⟩

def dS6 : SysState := ⟨(setTask dS5 0 ⟨.reportTerminal, demoOc⟩).tasks, none⟩

def dS7 : SysState := setTask dS6 0 ⟨.finished, demoOc⟩

/-- The first six events of the demonstration run. -/
def dTr1 : List Event :=
  [.started 0, .statusReport 0 .PROCESSING (some processingText) [], .acquired 0,
   .computeBegan 0, .computeEnded 0 demoOc, .released 0]

/-- The terminal report of the demonstration run. -/
def dReport : Event :=
  .statusReport 0 .ERROR (some (errorText "GPU out of memory")) []

lemma reach_dS7 : Reach demoCfg dS7 (dTr1 ++ [dReport]) :=
  Reach.next (Reach.next (Reach.next (Reach.next (Reach.next (Reach.next
    (Reach.next Reach.start (Step.submit initState 0 demoOc rfl))
    (Step.sendProc dS1 0 demoOc rfl))
    (Step.acquire dS2 0 demoOc rfl rfl))
    (Step.compBegin dS3 0 demoOc rfl))
    (Step.compEnd dS4 0 demoOc rfl))
    (Step.release dS5 0 demoOc rfl))
    (Step.reportTerm dS6 0 demoOc rfl)

/-- C3 witness: in a complete failing run the gate-release precedes the
`ERROR` report. -/
theorem gate_released_before_terminal_report_witness :
    Event.released 0 ∈ dTr1 :=
  (gate_released_before_terminal_report reach_dS7 0 dTr1 [] .ERROR
    (some (errorText "GPU out of memory")) [] rfl (Or.inr rfl)).1

/-- A configuration in which no worker identity was established. -/
def offCfg : Config := ⟨none, "http://parent"⟩

/-- A successful computation outcome used in the identity-less run. -/
def offOc : Outcome := .success [[1, 2, 3]]

def oS1 : SysState := setTask initState 0 ⟨.sendProcessing, offOc⟩

def oS2 : SysState := setTask oS1 0 ⟨.acquireGate, offOc⟩

def oS3 : SysState := ⟨(setTask oS2 0 ⟨.beginCompute, offOc⟩).tasks, some 0⟩

def oS4 : SysState := setTask oS3 0 ⟨.computing, offOc⟩

def oS5 : SysState := setTask oS4 0 ⟨.releaseGate, offOc⟩

/-- Trace of the identity-less run: `send_task_status` returns early. -/
def oTr : List Event :=
  [.started 0, .reportSkipped 0, .acquired 0, .computeBegan 0, .computeEnded 0 offOc]

lemma reach_oS5 : Reach offCfg oS5 oTr :=
  Reach.next (Reach.next (Reach.next (Reach.next
    (Reach.next Reach.start (Step.submit initState 0 offOc rfl))
    (Step.sendProc oS1 0 offOc rfl))
    (Step.acquire oS2 0 offOc rfl rfl))
    (Step.compBegin oS3 0 offOc rfl))
    (Step.compEnd oS4 0 offOc rfl)

/-- C9: when no worker identity is present, no reachable trace contains any
outbound status report (`send_task_status` returns early), while task
submission is still accepted and the computation still runs, as demonstrated
by an explicit identity-less run reaching the end of its computation. -/
theorem no_status_reports_without_identity :
    (∀ cfg : Config, cfg.worker_uuid = none → ∀ s tr, Reach cfg s tr →
       ∀ t st txt arts, Event.statusReport t st txt arts ∉ tr) ∧
    (∃ s tr, Reach offCfg s tr ∧ Event.started 0 ∈ tr ∧
       Event.computeBegan 0 ∈ tr ∧ Event.computeEnded 0 offOc ∈ tr) := by
  constructor
  · intro cfg hn s tr h t st txt arts
    have hEn : sendEnabled cfg = false := by
      simp [sendEnabled, hn, pyTruthyOptStr]
    induction h with
    | start => simp
    | next hr hstep ih =>
      intro hmem
      rw [List.mem_append] at hmem
      rcases hmem with hmem | hmem
      · exact ih hmem
      · cases hstep with
        | submit t2 oc h2 => simp at hmem
        | sendProc t2 oc h2 => simp [procEvent, reportEvent, hEn] at hmem
        | acquire t2 oc h2 hf => simp at hmem
        | compBegin t2 oc h2 => simp at hmem
        | compEnd t2 oc h2 => simp at hmem
        | release t2 oc h2 => simp at hmem
        | reportTerm t2 oc h2 =>
          cases oc <;> simp [terminalEvent, reportEvent, hEn] at hmem
  · exact ⟨oS5, oTr, reach_oS5, by simp [oTr], by simp [oTr], by simp [oTr]⟩

/-- C9 witness: in a concrete identity-less run no `PROCESSING` report is
ever sent. -/
theorem no_status_reports_without_identity_witness :
    Event.statusReport 0 .PROCESSING (some processingText) [] ∉ oTr :=
  no_status_reports_without_identity.1 offCfg rfl oS5 oTr reach_oS5
    0 .PROCESSING (some processingText) []

/-- C8: `create_task` responds `{"status": "STARTED", "task_id": <fresh>}`
synchronously, the task id comes from the worker's own generator and never
from the caller's payload (the response is independent of the payload), and
each task id is issued at most once over a process lifetime (every reachable
trace contains at most one `started` event per id). -/
theorem create_task_started_unique :
    (∀ (p1 p2 : List (String × String)) (g : String),
       create_task p1 g = ⟨"STARTED", g⟩ ∧ create_task p1 g = create_task p2 g) ∧
    (∀ cfg s tr, Reach cfg s tr → ∀ t, tr.count (Event.started t) ≤ 1) := by
  constructor
  · intro p1 p2 g
    exact ⟨rfl, rfl⟩
  · intro cfg s tr h t
    have hT := (reach_inv h).1
    have h1 : (perTask t tr).count (Event.started t) = tr.count (Event.started t) := by
      unfold perTask
      exact List.count_filter (by simp [eventTask])
    rw [← h1, hT t]
    cases hs : s.tasks t with
    | none => simp [taskTrace]
    | some ts =>
      obtain ⟨pc, oc⟩ := ts
      cases hEn : sendEnabled cfg <;> cases pc <;> cases oc <;>
        simp [taskTrace, taskHist, procEvent, terminalEvent, reportEvent, hEn,
          List.count_cons]

/-- C8 witness: a payload smuggling a `task_id` key does not influence the
response, and a concrete one-submission run issues the id exactly once. -/
theorem create_task_started_unique_witness :
    create_task [("task_id", "evil"), ("prompt", "a cat")] "fresh-1" =
      ⟨"STARTED", "fresh-1"⟩ ∧
    ([Event.started 0] : List Event).count (Event.started 0) ≤ 1 :=
  ⟨(create_task_started_unique.1 [("task_id", "evil"), ("prompt", "a cat")] []
      "fresh-1").1,
   create_task_started_unique.2 ⟨some "worker-1", "http://parent"⟩ _ _
     (show Reach ⟨some "worker-1", "http://parent"⟩
         (setTask initState 0 ⟨.sendProcessing, .success []⟩) [Event.started 0] from
       Reach.next Reach.start (Step.submit initState 0 (.success []) rfl)) 0⟩

/-- C4 (bug evidence): an HTTP failure inside the `try` block is swallowed
(`sendFailed`, the loop continues), but the payload construction `int(port)`
sits OUTSIDE the `try` block, so a non-numeric refreshed port value raises
`ValueError` out of `send_healthcheck`, and `periodic_healthcheck` terminates
instead of continuing — the spec requires every heartbeat failure to be
swallowed and the loop to continue on its fixed schedule. -/
theorem heartbeat_failure_handling :
    send_healthcheck (some "xyz-789") "http://parent"
        ⟨"1.2.3.4", "80", "parent"⟩ (.error "timeout") =
      .returns (.sendFailed "timeout") ∧
    send_healthcheck (some "xyz-789") "http://parent"
        ⟨"1.2.3.4", "not-a-number", "parent"⟩ (.ok ()) =
      .raises ("invalid literal for int() with base 10: not-a-number") ∧
    periodic_healthcheck (some "xyz-789") "http://parent"
        [(⟨"1.2.3.4", "80", "parent"⟩, .error "timeout"),
         (⟨"1.2.3.4", "not-a-number", "parent"⟩, .ok ()),
         (⟨"1.2.3.4", "80", "parent"⟩, .ok ())] =
      .raises ("invalid literal for int() with base 10: not-a-number") :=
  ⟨rfl, rfl, rfl⟩

lemma http_nonempty (h : String) : pyTruthyStr ("http://" ++ h) = true := by
  have hne : ("http://" ++ h) ≠ "" := by
    intro hc
    have hlen := congrArg String.length hc
    rw [String.length_append] at hlen
    have h7 : ("http://" : String).length = 7 := rfl
    have h0 : ("" : String).length = 0 := rfl
    omega
  simp [pyTruthyStr, hne]

/-- C5: when `send_task_status` issues a request, a non-empty artifact list
produces a multipart form with exactly one binary part per artifact, each
named `image` with filename `generated_image_<n>.jpg`, content type
`image/jpeg`, and bytes identical to the submitted artifact; an empty or
absent artifact list produces a single JSON body with the same fields and no
multipart encoding. -/
theorem send_task_status_encoding (wu ph tid st : String) (txt : Option String)
    (hwu : pyTruthyStr wu = true) (hph : pyTruthyStr ph = true) :
    (∀ l : List Bytes, l ≠ [] →
      ∃ parts,
        send_task_status (some wu) ph tid st txt (some l) =
          some (.multipart wu tid st (if pyTruthyOptStr txt then txt else none) parts) ∧
        parts.length = l.length ∧
        ∀ i (h1 : i < parts.length) (h2 : i < l.length),
          parts.get ⟨i, h1⟩ =
            ("image", "generated_image_" ++ toString i ++ ".jpg", l.get ⟨i, h2⟩,
              "image/jpeg")) ∧
    send_task_status (some wu) ph tid st txt (some []) =
      some (.json wu tid st (if pyTruthyOptStr txt then txt else none)) ∧
    send_task_status (some wu) ph tid st txt none =
      some (.json wu tid st (if pyTruthyOptStr txt then txt else none)) := by
  refine ⟨?_, ?_, ?_⟩
  · intro l hl
    refine ⟨l.enum.map imagePart, ?_, ?_, ?_⟩
    · rcases l with _ | ⟨b, bs⟩
      · exact absurd rfl hl
      · simp [send_task_status, pyTruthyOptStr, hwu, hph]
    · rw [List.length_map, List.enum_length]
    · intro i h1 h2
      have hi : i < l.enum.length := by
        simpa [List.enum_length] using h2
      have e1 : (l.enum.map imagePart).get ⟨i, h1⟩ = imagePart (l.enum.get ⟨i, hi⟩) :=
        List.getElem_map _
      have e2 : l.enum.get ⟨i, hi⟩ = (i, l.get ⟨i, h2⟩) := List.getElem_enum l i hi
      rw [e1, e2]
      rfl
  · simp [send_task_status, pyTruthyOptStr, hwu, hph]
  · simp [send_task_status, pyTruthyOptStr, hwu, hph]

/-- C5 witness: one artifact of three bytes yields the multipart encoding,
and an empty artifact list yields the JSON encoding. -/
theorem send_task_status_encoding_witness :
    (∃ parts,
      send_task_status (some "worker-1") "http://parent" "task-1" "DONE"
          (some "ok") (some [[7, 8, 9]]) =
        some (.multipart "worker-1" "task-1" "DONE"
          (if pyTruthyOptStr (some "ok") then some "ok" else none) parts) ∧
      parts.length = ([[7, 8, 9]] : List Bytes).length ∧
      ∀ i (h1 : i < parts.length) (h2 : i < ([[7, 8, 9]] : List Bytes).length),
        parts.get ⟨i, h1⟩ = ("image", "generated_image_" ++ toString i ++ ".jpg",
          ([[7, 8, 9]] : List Bytes).get ⟨i, h2⟩, "image/jpeg")) ∧
    send_task_status (some "worker-1") "http://parent" "task-1" "DONE" (some "ok")
        (some []) =
      some (.json "worker-1" "task-1" "DONE"
        (if pyTruthyOptStr (some "ok") then some "ok" else none)) :=
  ⟨(send_task_status_encoding "worker-1" "http://parent" "task-1" "DONE" (some "ok")
      (by decide) (by decide)).1 [[7, 8, 9]] (by simp),
   (send_task_status_encoding "worker-1" "http://parent" "task-1" "DONE" (some "ok")
      (by decide) (by decide)).2.1⟩

/-- C6: with no prior persisted identity, a registration responding with a
truthy uuid makes `connect_to_parent` return that token, issue the POST, and
persist it so that a subsequent `load_uuid` round-trips it (for tokens,
like `"abc-123"`, that whitespace-stripping leaves unchanged). -/
theorem register_roundtrip (env : Env) (u : String)
    (hip : pyTruthyStr env.publicIp = true) (hport : pyTruthyStr env.port = true)
    (hint : (pyToInt env.port).isSome = true)
    (hu : pyTruthyStr u = true) (htrim : pyStrip u = u) :
    (connect_to_parent env (some (some u)) none).result = .returns (some u) ∧
    (connect_to_parent env (some (some u)) none).posted = true ∧
    load_uuid (connect_to_parent env (some (some u)) none).fs = some u := by
  obtain ⟨n, hn⟩ := Option.isSome_iff_exists.mp hint
  simp [connect_to_parent, http_nonempty, hip, hport, hn, hu, save_uuid, load_uuid,
    htrim]

/-- C6 witness: registration returning `{"uuid": "abc-123"}` round-trips
through the identity file. -/
theorem register_roundtrip_witness :
    (connect_to_parent ⟨"1.2.3.4", "80", "parent.example"⟩
        (some (some "abc-123")) none).result = .returns (some "abc-123") ∧
    (connect_to_parent ⟨"1.2.3.4", "80", "parent.example"⟩
        (some (some "abc-123")) none).posted = true ∧
    load_uuid (connect_to_parent ⟨"1.2.3.4", "80", "parent.example"⟩
        (some (some "abc-123")) none).fs = some "abc-123" :=
  register_roundtrip ⟨"1.2.3.4", "80", "parent.example"⟩ "abc-123" (by decide)
    (by decide) (by decide) (by decide) (by decide)

/-- C7: with a persisted identity `"xyz-789"`, startup performs no
registration call (no POST to `/worker/connect`), starts the heartbeat loop
with that identity, and `GET /health` answers
`{"status": "healthy", "uuid": "xyz-789"}`. -/
theorem startup_with_persisted_identity (env : Env) (resp : Option (Option String)) :
    lifespan (some "xyz-789") env resp = ⟨some "xyz-789", false, false, true, false⟩ ∧
    health_check (lifespan (some "xyz-789") env resp).worker_uuid =
      ("healthy", some "xyz-789") :=
  ⟨rfl, rfl⟩

lemma connect_fs_irrel (env : Env) (resp : Option (Option String))
    (fs1 fs2 : Option String) :
    (connect_to_parent env resp fs1).result = (connect_to_parent env resp fs2).result ∧
    (connect_to_parent env resp fs1).posted = (connect_to_parent env resp fs2).posted := by
  cases hb : (!(pyTruthyStr ("http://" ++ env.parentHost)) ||
      !(pyTruthyStr env.publicIp) || !(pyTruthyStr env.port))
  · cases hp : pyToInt env.port with
    | none => simp [connect_to_parent, hb, hp]
    | some n =>
      cases resp with
      | none => simp [connect_to_parent, hb, hp]
      | some received =>
        cases received with
        | none => simp [connect_to_parent, hb, hp]
        | some u => cases hu : pyTruthyStr u <;> simp [connect_to_parent, hb, hp, hu]
  · simp [connect_to_parent, hb]

/-- C10: an identity file holding only whitespace loads as the empty string,
which startup treats as an absent identity: the startup behaviour (including
issuing the registration call) is identical to the file not existing. -/
theorem whitespace_identity_treated_absent (ws : String) (hws : pyStrip ws = "")
    (env : Env) (resp : Option (Option String)) :
    load_uuid (some ws) = some "" ∧
    lifespan (some ws) env resp = lifespan none env resp := by
  have h12 := connect_fs_irrel env resp (some ws) none
  constructor
  · simp [load_uuid, hws]
  · simp [lifespan, load_uuid, hws, pyTruthyOptStr, pyTruthyStr, h12.1, h12.2]

/-- C10 witness: a file of three spaces behaves exactly like a missing
file at startup. -/
theorem whitespace_identity_treated_absent_witness :
    load_uuid (some "   ") = some "" ∧
    lifespan (some "   ") ⟨"1.2.3.4", "80", "parent.example"⟩
        (some (some "abc-123")) =
      lifespan none ⟨"1.2.3.4", "80", "parent.example"⟩ (some (some "abc-123")) :=
  whitespace_identity_treated_absent "   " (by decide)
    ⟨"1.2.3.4", "80", "parent.example"⟩ (some (some "abc-123"))

end VastWorker
